import Mathlib

/-!
Shallow embedding of the pore-predictor repository, for checking its
specification.

The embedded code:
* `src/Layer_Handler/LayerKinematics.py` — the kinematics aggregator
  (`LayerKinematics.__init__` and its helper methods);
* `src/Ingesters/MonitoringPorosity.py` / `src/Ingesters/AcrossBuildPores.py`
  — `build_layer_id` and `MonitoringPorosity.load_monitoring_layer`;
* `src/Ingesters/aconReader.py` — `get_layer_to_string`.

Numeric modelling: the Python code computes over pandas/numpy floats; here
coordinates and times are rationals and the only irrational operation,
`np.sqrt`, is `Real.sqrt`, so the embedding is the exact-arithmetic reading
of the same formulas.  A pandas `NaN` cell (produced by `diff()` at row 0)
is modelled as `Option.none`, and the pandas `sum()` convention of skipping
`NaN` is modelled by summing `Option.getD 0`.
-/

namespace LayerKinematics

/-- One row of the common monitoring file, restricted to the columns the
kinematics aggregator (`LayerKinematics`) reads: `x`, `y`, `laser_status`. -/
structure Sample where
  x : ℚ
  y : ℚ
  laser_status : ℤ
  deriving DecidableEq, Repr

instance : Inhabited Sample := ⟨⟨0, 0, 0⟩⟩

/-- `self.df['event'] = self.df['laser_status'].diff()` followed by
`fillna(0)` and `astype(int)`: entry 0 is `NaN ↦ 0`, entry `i > 0` is
`laser_status[i] - laser_status[i-1]`. -/
def events : List ℤ → List ℤ
  | [] => []
  | s :: ss => 0 :: List.zipWith (fun a b => a - b) ss (s :: ss)

/-- `_retrieve_no_events`: `len(self.df[self.df['event'] == 1]) + 1`. -/
def noEvents (st : List ℤ) : ℕ :=
  (events st).countP (fun e => e = 1) + 1

/-- `self.df['length'] = np.sqrt(df['x'].diff()**2 + df['y'].diff()**2)`:
entry 0 is `NaN` (modelled `none`), entry `i > 0` is the Euclidean distance
between consecutive `(x, y)` points. -/
noncomputable def lengthCol : List Sample → List (Option ℝ)
  | [] => []
  | p :: ps =>
      none :: List.zipWith
        (fun a b =>
          some (Real.sqrt ((((a.x - b.x : ℚ) : ℝ)) ^ 2 + (((a.y - b.y : ℚ) : ℝ)) ^ 2)))
        ps (p :: ps)

/-- `_polygon_delays`: `np.where(self.df['length'] == 0.0, 1, 0)`; a `NaN`
length compares unequal to `0.0`, hence maps to `0`. -/
noncomputable def polygons (l : List Sample) : List ℤ :=
  (lengthCol l).map (fun o =>
    match o with
    | some d => if d = 0 then 1 else 0
    | none => 0)

/-- Pandas `Series.sum()` over a column with possible `NaN` entries: `NaN`
cells are skipped (count as `0`). -/
noncomputable def optSum (l : List (Option ℝ)) : ℝ :=
  l.foldr (fun o acc => o.getD 0 + acc) 0

/-- `_calculate_time_distance_on`, time part:
`len(df[df['laser_status'] == 1]) * 10 / 1000000`. -/
def time_on (l : List Sample) : ℚ :=
  (l.countP (fun s => s.laser_status = 1) : ℚ) * 10 / 1000000

/-- `_calculate_time_distance_off`, time part:
`len(df[df['laser_status'] == 0]) * 10 / 1000000`. -/
def time_off (l : List Sample) : ℚ :=
  (l.countP (fun s => s.laser_status = 0) : ℚ) * 10 / 1000000

/-- `_calculate_time_distance_on`, distance part:
`df[df['laser_status'] == 1]['length'].sum() / 1000`. -/
noncomputable def distance_on (l : List Sample) : ℝ :=
  optSum ((((lengthCol l).zip l).filter (fun p => p.2.laser_status = 1)).map Prod.fst) / 1000

/-- `_calculate_time_distance_off`, distance part:
`df[df['laser_status'] == 0]['length'].sum() / 1000`. -/
noncomputable def distance_off (l : List Sample) : ℝ :=
  optSum ((((lengthCol l).zip l).filter (fun p => p.2.laser_status = 0)).map Prod.fst) / 1000

/-- The `self.summary` dictionary built at the end of
`LayerKinematics.__init__`. -/
structure Summary where
  time_on : ℚ
  time_off : ℚ
  distance_on : ℝ
  distance_off : ℝ
  total_distance : ℝ
  total_time : ℚ
  number_events : ℕ

/-- `LayerKinematics.__init__` after the CSV has been loaded: compute the
derived columns and the summary record.  `'total distance'` and
`'total time'` are literally `distance_on + distance_off` and
`time_on + time_off` in the source. -/
noncomputable def summarize (l : List Sample) : Summary :=
  { time_on := time_on l
    time_off := time_off l
    distance_on := distance_on l
    distance_off := distance_off l
    total_distance := distance_on l + distance_off l
    total_time := time_on l + time_off l
    number_events := noEvents (l.map Sample.laser_status) }

end LayerKinematics

namespace LayerKinematics

/-- Claim-side counter: the number of laser-status transitions of a
sequence, i.e. the number of adjacent pairs with different status. -/
def countTransitions : List ℤ → ℕ
  | a :: b :: t => (if a ≠ b then 1 else 0) + countTransitions (b :: t)
  | _ => 0

/-- The number of rising (off-to-on) transitions of a sequence: adjacent
pairs whose difference is `1`; these are exactly the rows the code's
`event == 1` filter selects. -/
def countRising : List ℤ → ℕ
  | a :: b :: t => (if b - a = 1 then 1 else 0) + countRising (b :: t)
  | _ => 0

lemma countP_zipWith_sub (s : ℤ) (ss : List ℤ) :
    (List.zipWith (fun a b => a - b) ss (s :: ss)).countP (fun e => e = 1) =
      countRising (s :: ss) := by
  induction ss generalizing s with
  | nil => rfl
  | cons b t ih =>
    simp only [List.zipWith, List.countP_cons, countRising, ih b,
      decide_eq_true_eq]
    omega

lemma noEvents_eq_countRising (st : List ℤ) :
    noEvents st = countRising st + 1 := by
  cases st with
  | nil => rfl
  | cons s ss =>
    simp only [noEvents, events, List.countP_cons, countP_zipWith_sub,
      decide_eq_true_eq]
    norm_num

lemma countRising_replicate (c : ℤ) : ∀ k, countRising (List.replicate k c) = 0
  | 0 => rfl
  | 1 => rfl
  | (k + 2) => by
    have ih := countRising_replicate c (k + 1)
    simp only [List.replicate_succ, countRising] at ih ⊢
    simpa using ih

end LayerKinematics

open LayerKinematics in
/-- C1: the claim as stated is false: for the status sequence `[1, 0]`
there is one laser-status transition, so the claim predicts an event count
of `2`, but the code counts only rows with `event == 1` and reports `1`. -/
theorem c1_counterexample :
    countTransitions [1, 0] = 1 ∧ noEvents [1, 0] = 1 ∧
      noEvents [1, 0] ≠ countTransitions [1, 0] + 1 := by
  refine ⟨rfl, rfl, ?_⟩
  decide

open LayerKinematics in
/-- C1 (amended): the reported event count equals the number of rising
(off-to-on) laser-status transitions plus one; in particular an empty or
constant-status sequence is reported as one event. -/
theorem c1_event_count :
    (∀ st : List ℤ, noEvents st = countRising st + 1) ∧
      (∀ (c : ℤ) (k : ℕ), noEvents (List.replicate k c) = 1) := by
  refine ⟨noEvents_eq_countRising, fun c k => ?_⟩
  rw [noEvents_eq_countRising, countRising_replicate]

namespace LayerKinematics

lemma events_length (st : List ℤ) : (events st).length = st.length := by
  cases st with
  | nil => rfl
  | cons s ss => simp [events]

lemma zipWith_sub_getD (ss : List ℤ) (s : ℤ) :
    ∀ i : ℕ, i < ss.length →
      (List.zipWith (fun a b => a - b) ss (s :: ss)).getD i 0 =
        ss.getD i 0 - (s :: ss).getD i 0 := by
  induction ss generalizing s with
  | nil => intro i hi; simp at hi
  | cons b t ih =>
    intro i hi
    cases i with
    | zero => rfl
    | succ j =>
      have hj : j < t.length := by simpa using hi
      simpa using ih b j hj

end LayerKinematics

open LayerKinematics in
/-- C6: the derived `event` column has one entry per sample; its first
entry is `0`, and at every index `i > 0` it equals
`laser_status[i] - laser_status[i-1]`, which is nonzero exactly when the
laser status changes at `i`. -/
theorem c6_event_column (st : List ℤ) :
    (events st).length = st.length ∧
      (0 < st.length → (events st).getD 0 0 = 0) ∧
      (∀ i : ℕ, 0 < i → i < st.length →
        (events st).getD i 0 = st.getD i 0 - st.getD (i - 1) 0 ∧
          ((events st).getD i 0 ≠ 0 ↔ st.getD i 0 ≠ st.getD (i - 1) 0)) := by
  refine ⟨events_length st, ?_, ?_⟩
  · intro h
    cases st with
    | nil => simp at h
    | cons s ss => rfl
  · intro i hpos hlt
    cases st with
    | nil => simp at hlt
    | cons s ss =>
      obtain ⟨j, rfl⟩ : ∃ j, i = j + 1 := ⟨i - 1, (Nat.succ_pred_eq_of_pos hpos).symm⟩
      have hj : j < ss.length := by simpa using hlt
      have hmain : (events (s :: ss)).getD (j + 1) 0 =
          (s :: ss).getD (j + 1) 0 - (s :: ss).getD j 0 := by
        have := zipWith_sub_getD ss s j hj
        simpa [events] using this
      refine ⟨by simpa using hmain, ?_⟩
      rw [hmain]
      simp only [Nat.add_sub_cancel]
      constructor
      · intro hne heq
        exact hne (by rw [heq, sub_self])
      · intro hne
        exact fun h0 => hne (by linarith [sub_eq_zero.mp h0])

open LayerKinematics in
/-- Witness for C6 at the concrete status sequence `[0, 1]`, index `1`. -/
theorem c6_event_column_witness :
    (events [0, 1]).getD 0 0 = 0 ∧
      (events [0, 1]).getD 1 0 =
          ([0, 1] : List ℤ).getD 1 0 - ([0, 1] : List ℤ).getD 0 0 ∧
        ((events [0, 1]).getD 1 0 ≠ 0 ↔
          ([0, 1] : List ℤ).getD 1 0 ≠ ([0, 1] : List ℤ).getD 0 0) :=
  ⟨(c6_event_column [0, 1]).2.1 (by decide),
    (c6_event_column [0, 1]).2.2 1 (by decide) (by decide)⟩

namespace LayerKinematics

/-- The pointwise distance `np.sqrt((x[i]-x[i-1])**2 + (y[i]-y[i-1])**2)`
between two samples. -/
noncomputable def ptDist (a b : Sample) : ℝ :=
  Real.sqrt ((((a.x - b.x : ℚ) : ℝ)) ^ 2 + (((a.y - b.y : ℚ) : ℝ)) ^ 2)

lemma lengthCol_cons (p : Sample) (ps : List Sample) :
    lengthCol (p :: ps) =
      none :: List.zipWith (fun a b => some (ptDist a b)) ps (p :: ps) := rfl

lemma lengthCol_length (l : List Sample) : (lengthCol l).length = l.length := by
  cases l with
  | nil => rfl
  | cons p ps => simp [lengthCol_cons]

lemma zipWith_ptDist_getD (ps : List Sample) (p : Sample) :
    ∀ i : ℕ, i < ps.length →
      (List.zipWith (fun a b => some (ptDist a b)) ps (p :: ps)).getD i none =
        some (ptDist (ps.getD i default) ((p :: ps).getD i default)) := by
  induction ps generalizing p with
  | nil => intro i hi; simp at hi
  | cons b t ih =>
    intro i hi
    cases i with
    | zero => rfl
    | succ j =>
      have hj : j < t.length := by simpa using hi
      simpa using ih b j hj

end LayerKinematics

open LayerKinematics in
/-- C5: the derived `length` column has one entry per sample; its first
entry is undefined (`NaN`, modelled `none`), and at every index `i > 0` it
is the exact Euclidean distance between the consecutive `(x, y)` pairs. -/
theorem c5_length_column (l : List Sample) :
    (lengthCol l).length = l.length ∧
      (0 < l.length → (lengthCol l).getD 0 none = none) ∧
      (∀ i : ℕ, 0 < i → i < l.length →
        (lengthCol l).getD i none =
          some (Real.sqrt
            ((((l.getD i default).x : ℝ) - ((l.getD (i - 1) default).x : ℝ)) ^ 2 +
              (((l.getD i default).y : ℝ) - ((l.getD (i - 1) default).y : ℝ)) ^ 2))) := by
  refine ⟨lengthCol_length l, ?_, ?_⟩
  · intro h
    cases l with
    | nil => simp at h
    | cons p ps => rfl
  · intro i hpos hlt
    cases l with
    | nil => simp at hlt
    | cons p ps =>
      obtain ⟨j, rfl⟩ : ∃ j, i = j + 1 := ⟨i - 1, (Nat.succ_pred_eq_of_pos hpos).symm⟩
      have hj : j < ps.length := by simpa using hlt
      have hmain := zipWith_ptDist_getD ps p j hj
      rw [lengthCol_cons]
      simp only [List.getD_cons_succ, Nat.add_sub_cancel]
      rw [hmain]
      unfold ptDist
      push_cast
      rfl

/-- Concrete two-sample input used by the C5 witness. -/
def c5samples : List LayerKinematics.Sample := [⟨0, 0, 0⟩, ⟨1, 0, 1⟩]

open LayerKinematics in
/-- Witness for C5 at `c5samples`, index `1`. -/
theorem c5_length_column_witness :
    (lengthCol c5samples).getD 1 none =
      some (Real.sqrt
        ((((c5samples.getD 1 default).x : ℝ) - ((c5samples.getD 0 default).x : ℝ)) ^ 2 +
          (((c5samples.getD 1 default).y : ℝ) - ((c5samples.getD 0 default).y : ℝ)) ^ 2)) :=
  (c5_length_column c5samples).2.2 1 (by decide) (by decide)

namespace LayerKinematics

lemma countP_status_partition (l : List Sample)
    (h : ∀ s ∈ l, s.laser_status = 0 ∨ s.laser_status = 1) :
    l.countP (fun s => s.laser_status = 1) + l.countP (fun s => s.laser_status = 0) =
      l.length := by
  induction l with
  | nil => rfl
  | cons a t ih =>
    have ha := h a (List.mem_cons_self a t)
    have ih' := ih (fun s hs => h s (List.mem_cons_of_mem a hs))
    simp only [List.countP_cons, List.length_cons, decide_eq_true_eq]
    rcases ha with h0 | h1
    · rw [h0]
      norm_num
      omega
    · rw [h1]
      norm_num
      omega

end LayerKinematics

open LayerKinematics in
/-- C4: when every sample's laser status is `0` or `1`, the reported
`time on` plus `time off` equals the reported `total time`, and both equal
the number of samples times the fixed per-sample period
`10 / 1000000` seconds (10 µs). -/
theorem c4_time_partition (l : List Sample)
    (h : ∀ s ∈ l, s.laser_status = 0 ∨ s.laser_status = 1) :
    (summarize l).time_on + (summarize l).time_off = (summarize l).total_time ∧
      (summarize l).total_time = (l.length : ℚ) * (10 / 1000000) := by
  refine ⟨rfl, ?_⟩
  have hp := countP_status_partition l h
  simp only [summarize, time_on, time_off]
  rw [← hp]
  push_cast
  ring

/-- Concrete one-sample input used by the C4 witness. -/
def c4samples : List LayerKinematics.Sample := [⟨0, 0, 1⟩]

open LayerKinematics in
/-- Witness for C4 at the one-sample sequence `c4samples`. -/
theorem c4_time_partition_witness :
    (summarize c4samples).time_on + (summarize c4samples).time_off =
        (summarize c4samples).total_time ∧
      (summarize c4samples).total_time = (c4samples.length : ℚ) * (10 / 1000000) :=
  c4_time_partition c4samples (by decide)

namespace LayerKinematics

lemma countP_eq_zero_of_no_on (l : List Sample) (h : ∀ s ∈ l, s.laser_status ≠ 1) :
    l.countP (fun s => s.laser_status = 1) = 0 := by
  rw [List.countP_eq_zero]
  intro a ha
  simpa using h a ha

lemma filter_on_eq_nil (l : List Sample) (h : ∀ s ∈ l, s.laser_status ≠ 1) :
    ((lengthCol l).zip l).filter (fun p => p.2.laser_status = 1) = [] := by
  rw [List.filter_eq_nil_iff]
  intro p hp
  have := (List.of_mem_zip hp).2
  simpa using h p.2 this

end LayerKinematics

open LayerKinematics in
/-- C7: an empty or single-sample sequence is handled without error: the
first-sample derived fields are `NaN`/zero by convention, and a sequence
with no laser-on samples reports `time on = 0` and `distance on = 0`. -/
theorem c7_edge_cases (l : List Sample) (h : ∀ s ∈ l, s.laser_status ≠ 1) :
    (summarize l).time_on = 0 ∧ (summarize l).distance_on = 0 ∧
      lengthCol ([] : List Sample) = [] ∧ events ([] : List ℤ) = [] ∧
      (∀ s : Sample,
        lengthCol [s] = [none] ∧ events [s.laser_status] = [0] ∧ polygons [s] = [0]) := by
  refine ⟨?_, ?_, rfl, rfl, fun s => ⟨rfl, rfl, rfl⟩⟩
  · simp only [summarize, time_on, countP_eq_zero_of_no_on l h]
    norm_num
  · simp only [summarize, distance_on, filter_on_eq_nil l h, List.map_nil]
    show (0 : ℝ) / 1000 = 0
    norm_num

/-- Concrete laser-off-only input used by the C7 witness. -/
def c7samples : List LayerKinematics.Sample := [⟨0, 0, 0⟩]

open LayerKinematics in
/-- Witness for C7 at the all-off sequence `c7samples`. -/
theorem c7_edge_cases_witness :
    (summarize c7samples).time_on = 0 ∧ (summarize c7samples).distance_on = 0 :=
  ⟨(c7_edge_cases c7samples (by decide)).1, (c7_edge_cases c7samples (by decide)).2.1⟩

namespace LayerKinematics

/-- The dataframe held by `LayerKinematics`: base columns `x`, `y`,
`laser_status` (bundled as `samples`) plus the three derived columns the
constructor writes. -/
structure KTable where
  samples : List Sample
  length : List (Option ℝ)
  event : List ℤ
  polygons : List ℤ

/-- The column-writing part of `LayerKinematics.__init__`: recompute the
`length`, `event` and `polygons` columns from the base columns, overwriting
whatever derived columns the table already carries. -/
noncomputable def augment (t : KTable) : KTable :=
  { samples := t.samples
    length := lengthCol t.samples
    event := events (t.samples.map Sample.laser_status)
    polygons := polygons t.samples }

end LayerKinematics

open LayerKinematics in
/-- C8: the aggregator is idempotent: running it on its own augmented
output (whose base columns it reads and whose derived columns it
overwrites) reproduces identical derived columns. -/
theorem c8_idempotent (t : KTable) :
    augment (augment t) = augment t ∧
      (augment (augment t)).length = (augment t).length ∧
      (augment (augment t)).event = (augment t).event ∧
      (augment (augment t)).polygons = (augment t).polygons :=
  ⟨rfl, rfl, rfl, rfl⟩

namespace LayerKinematics

/-- The raw CSV table as loaded by `pd.read_csv`, seen through the three
columns the aggregator accesses; a column the file does not have is `none`
(its access raises `KeyError`). -/
structure RawTable where
  x : Option (List ℚ)
  y : Option (List ℚ)
  laser_status : Option (List ℤ)

/-- `LayerKinematics.__init__` including its column accesses: if any of
the expected columns `x`, `y`, `laser_status` is missing the constructor
dies with `KeyError` (modelled `none`); otherwise it computes the summary
over the aligned rows. -/
noncomputable def runLayerKinematics (t : RawTable) : Option Summary :=
  match t.x, t.y, t.laser_status with
  | some xs, some ys, some st => some (summarize (List.zipWith3 Sample.mk xs ys st))
  | _, _, _ => none

end LayerKinematics

open LayerKinematics in
/-- C3: the claim as stated is false: a one-sample input whose laser
status is `2` (neither `0` nor `1`) is not rejected — the aggregator
silently produces a summary. -/
theorem c3_counterexample :
    (runLayerKinematics ⟨some [0], some [0], some [2]⟩).isSome = true ∧
      (∀ st ∈ ([2] : List ℤ), st ≠ 0 ∧ st ≠ 1) :=
  ⟨rfl, by decide⟩

open LayerKinematics in
/-- C3 (amended): a summary is produced exactly when all the expected
columns `x`, `y`, `laser_status` are present — a missing column is a fatal
`KeyError`, but a non-binary laser status is not validated: such samples
are silently excluded from both the on and the off aggregates. -/
theorem c3_missing_column (t : RawTable) :
    (runLayerKinematics t).isSome = true ↔
      t.x.isSome = true ∧ t.y.isSome = true ∧ t.laser_status.isSome = true := by
  obtain ⟨x, y, st⟩ := t
  cases x <;> cases y <;> cases st <;> simp [runLayerKinematics]

/-- The 4-sample input of the spec's worked example: statuses
`[0, 1, 1, 0]`, positions `(0,0), (1,0), (1,1), (1,1)`. -/
def c2samples : List LayerKinematics.Sample :=
  [⟨0, 0, 0⟩, ⟨1, 0, 1⟩, ⟨1, 1, 1⟩, ⟨1, 1, 0⟩]

namespace LayerKinematics

lemma c2_lengthCol : lengthCol c2samples = [none, some 1, some 1, some 0] := by
  show lengthCol [⟨0, 0, 0⟩, ⟨1, 0, 1⟩, ⟨1, 1, 1⟩, ⟨1, 1, 0⟩] = _
  rw [lengthCol_cons]
  simp only [List.zipWith, ptDist]
  norm_num [Real.sqrt_one, Real.sqrt_zero]

lemma c2_distance_on : distance_on c2samples = 2 / 1000 := by
  unfold distance_on
  rw [c2_lengthCol]
  simp [c2samples, optSum]
  norm_num

lemma c2_distance_off : distance_off c2samples = 0 := by
  unfold distance_off
  rw [c2_lengthCol]
  simp [c2samples, optSum]

lemma c2_count_on : c2samples.countP (fun s => s.laser_status = 1) = 2 := by decide

lemma c2_count_off : c2samples.countP (fun s => s.laser_status = 0) = 2 := by decide

end LayerKinematics

open LayerKinematics in
/-- C2: the claim as stated is false on the example input `c2samples`: the
code's `event` column there is `[0, 1, 0, -1]` (not `[0, 1, 0, 1]`), its
reported event count is `2` (not `3`), and its reported `distance on` is
`2 / 1000` (not `2`, the raw length sum being divided by 1000). -/
theorem c2_counterexample :
    events (c2samples.map Sample.laser_status) ≠ [0, 1, 0, 1] ∧
      (summarize c2samples).number_events ≠ 3 ∧
      (summarize c2samples).distance_on ≠ 2 := by
  refine ⟨by decide, by decide, ?_⟩
  have h : (summarize c2samples).distance_on = 2 / 1000 := c2_distance_on
  rw [h]
  norm_num

open LayerKinematics in
/-- C2 (amended): on the example input `c2samples` the aggregator produces
`length = [NaN, 1, 1, 0]`, `event = [0, 1, 0, -1]`, an event count of `2`,
`time on` and `time off` of `2 × 10/1000000` seconds (20 µs each), a
reported `distance on` of `2 / 1000` (raw length sum 2 scaled by 1/1000),
and a `distance off` of `0`. -/
theorem c2_example :
    lengthCol c2samples = [none, some 1, some 1, some 0] ∧
      events (c2samples.map Sample.laser_status) = [0, 1, 0, -1] ∧
      (summarize c2samples).number_events = 2 ∧
      (summarize c2samples).time_on = 2 * (10 / 1000000) ∧
      (summarize c2samples).time_off = 2 * (10 / 1000000) ∧
      (summarize c2samples).distance_on = 2 / 1000 ∧
      (summarize c2samples).distance_off = 0 := by
  refine ⟨c2_lengthCol, by decide, by decide, ?_, ?_, c2_distance_on, c2_distance_off⟩
  · show time_on c2samples = 2 * (10 / 1000000)
    unfold time_on
    rw [c2_count_on]
    norm_num
  · show time_off c2samples = 2 * (10 / 1000000)
    unfold time_off
    rw [c2_count_off]
    norm_num

namespace Ingesters

/-- `build_layer_id` from `src/Ingesters/MonitoringPorosity.py` and
`src/Ingesters/AcrossBuildPores.py`: `j = i // 10`; return `f'00{i}'` if
`j < 1`, `f'0{i}'` if `1 <= j < 10`, else `f'{i}'`. -/
def build_layer_id (i : ℕ) : String :=
  let j := i / 10
  if j < 1 then "00" ++ Nat.repr i
  else if 1 ≤ j ∧ j < 10 then "0" ++ Nat.repr i
  else Nat.repr i

/-- `get_layer_to_string` from `src/Ingesters/aconReader.py`:
`i = layer_num / 10` (true division); return `f'00{layer_num}'` if `i < 1`,
`f'0{layer_num}'` if `1 <= i < 10`, else `f'{layer_num}'`. -/
def get_layer_to_string (layer_num : ℕ) : String :=
  let i : ℚ := (layer_num : ℚ) / 10
  if i < 1 then "00" ++ Nat.repr layer_num
  else if 1 ≤ i ∧ i < 10 then "0" ++ Nat.repr layer_num
  else Nat.repr layer_num

/-- Claim-side definition: the decimal representation of `n`, zero-padded
on the left to at least three characters. -/
def padTo3 (n : ℕ) : String :=
  (List.replicate (3 - (Nat.repr n).length) '0').asString ++ Nat.repr n

lemma toDigitsCore_length_eq (b : ℕ) (hb : 2 ≤ b) :
    ∀ (f n : ℕ) (ds : List Char), n < f →
      (Nat.toDigitsCore b f n ds).length = Nat.log b n + 1 + ds.length := by
  intro f
  induction f with
  | zero => intro n ds h; omega
  | succ f ih =>
    intro n ds h
    by_cases hdiv : n / b = 0
    · have hnb : n < b := by
        by_contra hge
        have h1 : 1 ≤ n / b := (Nat.one_le_div_iff (by omega)).mpr (by omega)
        omega
      have hlog : Nat.log b n = 0 := Nat.log_eq_zero_iff.mpr (Or.inl hnb)
      simp only [Nat.toDigitsCore, hdiv, if_true, List.length_cons, hlog]
      omega
    · have hge : b ≤ n := by
        by_contra hlt
        exact hdiv (Nat.div_eq_of_lt (by omega))
      have hnpos : 0 < n := by omega
      have hstep : n / b < f := by
        have h1 : n / b < n := Nat.div_lt_self hnpos (by omega)
        omega
      have := ih (n / b) (Nat.digitChar (n % b) :: ds) hstep
      have hlog1 : 1 ≤ Nat.log b n :=
        (Nat.pow_le_iff_le_log (by omega) (by omega)).mp (by simpa using hge)
      have hlogdiv : Nat.log b (n / b) = Nat.log b n - 1 := Nat.log_div_base b n
      simp only [Nat.toDigitsCore, hdiv, if_false]
      rw [this, hlogdiv]
      simp only [List.length_cons]
      omega

lemma repr_length_eq (n : ℕ) : (Nat.repr n).length = Nat.log 10 n + 1 := by
  show ((Nat.toDigits 10 n).asString).length = _
  have h := toDigitsCore_length_eq 10 (by omega) (n + 1) n [] (by omega)
  show (Nat.toDigitsCore 10 (n + 1) n []).length = _
  rw [h]
  rfl

lemma repr_length_of_lt_ten {n : ℕ} (h : n < 10) : (Nat.repr n).length = 1 := by
  rw [repr_length_eq, Nat.log_eq_zero_iff.mpr (Or.inl h)]

lemma repr_length_of_two_digits {n : ℕ} (h1 : 10 ≤ n) (h2 : n < 100) :
    (Nat.repr n).length = 2 := by
  rw [repr_length_eq]
  have hl : Nat.log 10 n = 1 :=
    Nat.log_eq_of_pow_le_of_lt_pow (show 10 ^ 1 ≤ n by simpa using h1)
      (show n < 10 ^ (1 + 1) by norm_num; omega)
  omega

lemma repr_length_of_ge_hundred {n : ℕ} (h : 100 ≤ n) : 3 ≤ (Nat.repr n).length := by
  rw [repr_length_eq]
  have : 2 ≤ Nat.log 10 n :=
    (Nat.pow_le_iff_le_log (by omega) (by omega)).mp (by simpa using h)
  omega

lemma repr_length_of_three_digits {n : ℕ} (h1 : 100 ≤ n) (h2 : n ≤ 999) :
    (Nat.repr n).length = 3 := by
  rw [repr_length_eq]
  have hl : Nat.log 10 n = 2 :=
    Nat.log_eq_of_pow_le_of_lt_pow (show 10 ^ 2 ≤ n by norm_num; omega)
      (show n < 10 ^ (2 + 1) by norm_num; omega)
  omega

end Ingesters

open Ingesters in
/-- C10: for every `n : ℕ`, `build_layer_id` (ingesters) and
`get_layer_to_string` (Aconity reader) return the same string, namely the
decimal representation of `n` zero-padded on the left to at least three
characters, and exactly three characters whenever `n ≤ 999`. -/
theorem c10_layer_id (n : ℕ) :
    build_layer_id n = get_layer_to_string n ∧
      build_layer_id n = padTo3 n ∧
      3 ≤ (build_layer_id n).length ∧
      (n ≤ 999 → (build_layer_id n).length = 3) := by
  rcases lt_or_le n 10 with h10 | h10
  · have hb : build_layer_id n = "00" ++ Nat.repr n := by
      unfold build_layer_id
      have hj : n / 10 < 1 := by omega
      simp [hj]
    have hg : get_layer_to_string n = "00" ++ Nat.repr n := by
      unfold get_layer_to_string
      have hi : (n : ℚ) / 10 < 1 := by
        rw [div_lt_one (by norm_num)]
        exact_mod_cast h10
      simp [hi]
    have hlen : (Nat.repr n).length = 1 := repr_length_of_lt_ten h10
    have hp : padTo3 n = "00" ++ Nat.repr n := by
      unfold padTo3
      rw [hlen]
      rfl
    have hlen3 : (build_layer_id n).length = 3 := by
      rw [hb, String.length_append, hlen]
      rfl
    exact ⟨hb.trans hg.symm, hb.trans hp.symm, by omega, fun _ => hlen3⟩
  · rcases lt_or_le n 100 with h100 | h100
    · have hj1 : ¬ n / 10 < 1 := by
        have : 1 ≤ n / 10 := (Nat.one_le_div_iff (by omega)).mpr h10
        omega
      have hj2 : 1 ≤ n / 10 ∧ n / 10 < 10 := by
        constructor
        · exact (Nat.one_le_div_iff (by omega)).mpr h10
        · omega
      have hb : build_layer_id n = "0" ++ Nat.repr n := by
        unfold build_layer_id
        simp [hj1, hj2]
      have hi1 : ¬ (n : ℚ) / 10 < 1 := by
        rw [not_lt, le_div_iff₀ (by norm_num)]
        exact_mod_cast h10
      have hi2 : (1 : ℚ) ≤ (n : ℚ) / 10 ∧ (n : ℚ) / 10 < 10 := by
        constructor
        · rw [le_div_iff₀ (by norm_num)]
          exact_mod_cast h10
        · rw [div_lt_iff₀ (by norm_num)]
          exact_mod_cast h100
      have hg : get_layer_to_string n = "0" ++ Nat.repr n := by
        unfold get_layer_to_string
        simp [hi1, hi2]
      have hlen : (Nat.repr n).length = 2 := repr_length_of_two_digits h10 h100
      have hp : padTo3 n = "0" ++ Nat.repr n := by
        unfold padTo3
        rw [hlen]
        rfl
      have hlen3 : (build_layer_id n).length = 3 := by
        rw [hb, String.length_append, hlen]
        rfl
      exact ⟨hb.trans hg.symm, hb.trans hp.symm, by omega, fun _ => hlen3⟩
    · have hj1 : ¬ n / 10 < 1 := by
        have : 10 ≤ n / 10 := (Nat.le_div_iff_mul_le (by omega)).mpr (by omega)
        omega
      have hj2 : ¬ (1 ≤ n / 10 ∧ n / 10 < 10) := by
        have : 10 ≤ n / 10 := (Nat.le_div_iff_mul_le (by omega)).mpr (by omega)
        omega
      have hb : build_layer_id n = Nat.repr n := by
        unfold build_layer_id
        simp [hj1, hj2]
      have hi10 : (10 : ℚ) ≤ (n : ℚ) / 10 := by
        rw [le_div_iff₀ (by norm_num)]
        exact_mod_cast h100
      have hi1 : ¬ (n : ℚ) / 10 < 1 := by
        rw [not_lt]
        linarith
      have hi2 : ¬ ((1 : ℚ) ≤ (n : ℚ) / 10 ∧ (n : ℚ) / 10 < 10) := by
        rintro ⟨-, hlt⟩
        linarith
      have hg : get_layer_to_string n = Nat.repr n := by
        unfold get_layer_to_string
        simp [hi1, hi2]
      have hlen : 3 ≤ (Nat.repr n).length := repr_length_of_ge_hundred h100
      have hp : padTo3 n = Nat.repr n := by
        unfold padTo3
        have hz : 3 - (Nat.repr n).length = 0 := by omega
        rw [hz]
        rfl
      refine ⟨hb.trans hg.symm, hb.trans hp.symm, by rw [hb]; omega, fun h999 => ?_⟩
      rw [hb, repr_length_of_three_digits h100 h999]

open Ingesters in
/-- Witness for C10 at `n = 5` (and its `n ≤ 999` hypothesis). -/
theorem c10_layer_id_witness :
    build_layer_id 5 = get_layer_to_string 5 ∧
      build_layer_id 5 = padTo3 5 ∧
      3 ≤ (build_layer_id 5).length ∧
      (build_layer_id 5).length = 3 :=
  ⟨(c10_layer_id 5).1, (c10_layer_id 5).2.1, (c10_layer_id 5).2.2.1,
    (c10_layer_id 5).2.2.2 (by norm_num)⟩

namespace Ingesters

/-- One row of a transformed monitoring CSV, restricted to the columns of
the common monitoring format that `load_monitoring_layer` touches; `power`
is an integer sensor value (cf. the dtype table in `aconReader.py`). -/
structure MonRow where
  t : ℚ
  x : ℚ
  y : ℚ
  z : ℚ
  power : ℤ
  laser_status : ℤ
  deriving DecidableEq, Repr

/-- `df.iloc[::10, :]`: the rows whose index is a multiple of 10. -/
def iloc10 {α : Type} (l : List α) : List α :=
  (l.enum.filter (fun p => p.1 % 10 = 0)).map Prod.snd

/-- `MonitoringPorosity.load_monitoring_layer` (textually identical in
`MonitoringPorosity.py` and `AcrossBuildPores.py`): build the layer's
filename, read it (`file` maps a path to the rows of the CSV stored
there), optionally filter by laser status, keep the rows with
`power > 2700`, and take every tenth row. -/
def load_monitoring_layer (file : String → List MonRow) (dir : String) (n : ℕ)
    (laser_on laser_off : Bool) : List MonRow :=
  let filepath := dir ++ "/transformed_id-" ++ build_layer_id n ++ ".csv"
  let df := file filepath
  let df2 := if laser_on && !laser_off then df.filter (fun r => r.laser_status = 1)
    else if laser_off && !laser_on then df.filter (fun r => r.laser_status = 0)
    else df
  let df3 := df2.filter (fun r => r.power > 2700)
  iloc10 df3

lemma mem_iloc10 {α : Type} {l : List α} {a : α} (h : a ∈ iloc10 l) : a ∈ l := by
  unfold iloc10 at h
  rcases List.mem_map.mp h with ⟨p, hp, rfl⟩
  have hp' := (List.mem_filter.mp hp).1
  have hg := List.mem_enum_iff_getElem?.mp hp'
  exact List.getElem?_mem hg

end Ingesters

open Ingesters in
/-- C9: every row returned by `load_monitoring_layer` has `power > 2700`;
with `laser_on` and not `laser_off` every returned row has laser status 1,
with `laser_off` and not `laser_on` laser status 0; and when the two flags
are equal no laser-status filter is applied at all. -/
theorem c9_load_monitoring_layer (file : String → List MonRow) (dir : String)
    (n : ℕ) (laser_on laser_off : Bool) :
    (∀ r ∈ load_monitoring_layer file dir n laser_on laser_off, r.power > 2700) ∧
      (laser_on = true → laser_off = false →
        ∀ r ∈ load_monitoring_layer file dir n laser_on laser_off,
          r.laser_status = 1) ∧
      (laser_off = true → laser_on = false →
        ∀ r ∈ load_monitoring_layer file dir n laser_on laser_off,
          r.laser_status = 0) ∧
      (laser_on = laser_off →
        load_monitoring_layer file dir n laser_on laser_off =
          iloc10 ((file (dir ++ "/transformed_id-" ++ build_layer_id n ++ ".csv")).filter
            (fun r => r.power > 2700))) := by
  refine ⟨?_, ?_, ?_, ?_⟩
  · intro r hr
    simp only [load_monitoring_layer] at hr
    have h1 := List.mem_filter.mp (mem_iloc10 hr)
    simpa using h1.2
  · rintro rfl rfl r hr
    simp only [load_monitoring_layer, Bool.not_false, Bool.and_true, if_true] at hr
    have h1 := (List.mem_filter.mp (mem_iloc10 hr)).1
    have h2 := List.mem_filter.mp h1
    simpa using h2.2
  · rintro rfl rfl r hr
    simp only [load_monitoring_layer, Bool.not_true, Bool.and_false, if_false,
      Bool.not_false, Bool.and_true, if_true] at hr
    have h1 := (List.mem_filter.mp (mem_iloc10 hr)).1
    have h2 := List.mem_filter.mp h1
    simpa using h2.2
  · intro heq
    cases laser_on <;> cases laser_off
    · simp [load_monitoring_layer]
    · exact absurd heq (by decide)
    · exact absurd heq (by decide)
    · simp [load_monitoring_layer]

/-- Concrete row used by the C9 witness. -/
def c9row : Ingesters.MonRow := ⟨0, 0, 0, 0, 2800, 1⟩

/-- Concrete one-row file system used by the C9 witness. -/
def c9file : String → List Ingesters.MonRow := fun _ => [c9row]

open Ingesters in
/-- Witness for C9: at the one-row file `c9file`, flags `(true, false)`
pick a returned row and discharge the membership hypotheses, and equal
flags `(true, true)` discharge the no-filter case. -/
theorem c9_load_monitoring_layer_witness :
    c9row.power > 2700 ∧ c9row.laser_status = 1 ∧
      load_monitoring_layer c9file "d" 1 true true =
        iloc10 ((c9file ("d" ++ "/transformed_id-" ++ build_layer_id 1 ++ ".csv")).filter
          (fun r => r.power > 2700)) :=
  ⟨(c9_load_monitoring_layer c9file "d" 1 true false).1 c9row (by decide),
    (c9_load_monitoring_layer c9file "d" 1 true false).2.1 rfl rfl c9row (by decide),
    (c9_load_monitoring_layer c9file "d" 1 true true).2.2.2 rfl⟩
